import Mathlib

/-!
Shallow embedding of `src/audio_streamer.py` (class `AudioStreamer`) and proofs
about its rolling buffer, dual-cadence scheduler, local aggregator and
persistence paths.

Modelling conventions:
* A multi-channel sample row (`numpy` array row) is a `Frame := List ℚ`;
  the audio buffer (`self.audio_buffer`) is a `List Frame` (rows in order).
* Timestamps (`datetime` values) are rationals (seconds); `timedelta
  .total_seconds()` becomes subtraction in `ℚ`.
* `strftime('%Y%m%dT%H%M%S')` is injective per whole second, so the minted
  audio id is modelled as `"audio_" ++ toString ⌊t⌋` (second truncation).
* Python `dict`s preserve insertion order; they are modelled as ordered
  association lists `List (String × _)` with unique keys maintained by the
  operations themselves, exactly as the code does.
* Feature values are `float(np.std(...))` in the code.  The aggregation and
  scheduling code never inspects a value, so the machine is generic over the
  value type `V`; the actual extractor (population standard deviation over
  all samples and channels) is pinned separately with values in `ℝ`.
* File writes are modelled as an output list of `(filename, content)` pairs;
  a separate `Except`-monad model captures which writes can raise and which
  exceptions the code catches.
-/

namespace AudioStreamer

/-- One multi-channel sample row of the audio buffer. -/
abbrev Frame := List ℚ

/-- Opaque `meta` pass-through map from the configuration. -/
abbrev Meta := List (String × String)

/-- The configuration fields used by the buffer/scheduler/aggregation core
(`self.config` plus the derived `self.audio_extension`). -/
structure Config where
  samplerate : ℚ
  audio_time : ℚ
  feature_time : ℚ
  device_id : Option String
  meta : Option Meta
  extension : String
deriving Repr, DecidableEq

/-- Python `int(self.config['samplerate'] * self.config['audio_time'])`, the maximum
buffer length in samples (for the nonnegative products that occur, Python
`int` truncation agrees with the floor). -/
def maxLength (cfg : Config) : ℕ := (⌊cfg.samplerate * cfg.audio_time⌋ : ℤ).toNat

/-- Python `int(self.config['samplerate'] * self.config['feature_time'])`, the
feature-window length in samples. -/
def featureLength (cfg : Config) : ℕ := (⌊cfg.samplerate * cfg.feature_time⌋ : ℤ).toNat

/-- Python tail slice `a[-n:]`.  For `n ≥ 1` this keeps the last `n` rows
(or everything when shorter); for `n = 0` the slice `a[-0:]` is `a[0:]`,
i.e. the whole array — this quirk is modelled faithfully. -/
def pyTailSlice (n : ℕ) (l : List α) : List α :=
  if n = 0 then l else l.rtake n

/-- Source `AudioStreamer.manage_audio_buffer`: append `indata` to the buffer, then
trim from the head whenever the length exceeds `maxLength`. -/
def manage_audio_buffer (cfg : Config) (buf indata : List Frame) : List Frame :=
  let buf' := buf ++ indata
  if buf'.length > maxLength cfg then pyTailSlice (maxLength cfg) buf' else buf'

section RtakeLemmas

variable {α : Type _}

theorem rtake_of_length_le {l : List α} {n : ℕ} (h : l.length ≤ n) :
    l.rtake n = l := by
  simp [List.rtake, Nat.sub_eq_zero_of_le h]

theorem length_rtake_le (l : List α) (n : ℕ) : (l.rtake n).length ≤ n := by
  rw [List.rtake_eq_reverse_take_reverse]
  simp

theorem take_append_take (m : ℕ) (x y : List α) :
    (x ++ y.take m).take m = (x ++ y).take m := by
  rw [List.take_append_eq_append_take, List.take_append_eq_append_take,
    List.take_take]
  congr 1
  exact congrArg (fun k => y.take k) (Nat.min_eq_left (Nat.sub_le m x.length))

theorem rtake_append_rtake (m : ℕ) (a b : List α) :
    (a.rtake m ++ b).rtake m = (a ++ b).rtake m := by
  rw [List.rtake_eq_reverse_take_reverse, List.rtake_eq_reverse_take_reverse,
    List.rtake_eq_reverse_take_reverse]
  rw [List.reverse_append, List.reverse_append, List.reverse_reverse]
  rw [take_append_take]

end RtakeLemmas

theorem manage_eq_rtake (cfg : Config) (hpos : 1 ≤ maxLength cfg)
    (buf indata : List Frame) :
    manage_audio_buffer cfg buf indata = (buf ++ indata).rtake (maxLength cfg) := by
  unfold manage_audio_buffer pyTailSlice
  by_cases h : (buf ++ indata).length > maxLength cfg
  · simp only [h, if_true]
    have hne : maxLength cfg ≠ 0 := Nat.one_le_iff_ne_zero.mp hpos
    simp [hne]
  · simp only [h, if_false]
    exact (rtake_of_length_le (Nat.le_of_not_lt h)).symm

theorem foldl_manage_eq (cfg : Config) (hpos : 1 ≤ maxLength cfg)
    (batches : List (List Frame)) :
    ∀ buf : List Frame,
      batches.foldl (manage_audio_buffer cfg) (buf.rtake (maxLength cfg)) =
        (buf ++ batches.flatten).rtake (maxLength cfg) := by
  induction batches with
  | nil => intro buf; simp
  | cons b bs ih =>
      intro buf
      have h1 : manage_audio_buffer cfg (buf.rtake (maxLength cfg)) b =
          ((buf ++ b)).rtake (maxLength cfg) := by
        rw [manage_eq_rtake cfg hpos, rtake_append_rtake]
      simp only [List.foldl_cons, h1]
      have h2 := ih (buf ++ b)
      rw [h2, List.flatten_cons, List.append_assoc]

/-- The floor bound `maxLength cfg ≤ samplerate * audio_time` (as rationals),
meaningful once the capacity is at least one sample. -/
theorem maxLength_le_product (cfg : Config) (hpos : 1 ≤ maxLength cfg) :
    (maxLength cfg : ℚ) ≤ cfg.samplerate * cfg.audio_time := by
  unfold maxLength at *
  have h0 : (0 : ℤ) ≤ ⌊cfg.samplerate * cfg.audio_time⌋ := by
    by_contra hneg
    push_neg at hneg
    rw [Int.toNat_of_nonpos (le_of_lt hneg)] at hpos
    omega
  have h1 : ((⌊cfg.samplerate * cfg.audio_time⌋ : ℤ).toNat : ℤ) =
      ⌊cfg.samplerate * cfg.audio_time⌋ := Int.toNat_of_nonneg h0
  have h2 : (((⌊cfg.samplerate * cfg.audio_time⌋ : ℤ).toNat : ℤ) : ℚ) ≤
      cfg.samplerate * cfg.audio_time := by
    rw [h1]; exact Int.floor_le _
  exact_mod_cast h2

/-- C1: starting from the empty buffer, after any sequence of append-and-trim
steps the buffer length is at most `samplerate × audio_time`, and its content
is exactly the suffix (of the bounded length) of the concatenation of all
appended rows — the most recent samples, oldest discarded first.  The
capacity hypothesis `1 ≤ maxLength cfg` rules out the degenerate
sub-one-sample window, where Python's `a[-0:]` slice disables trimming. -/
theorem rolling_buffer_window_invariant (cfg : Config) (batches : List (List Frame))
    (hpos : 1 ≤ maxLength cfg) :
    (batches.foldl (manage_audio_buffer cfg) []).length ≤ maxLength cfg ∧
    (maxLength cfg : ℚ) ≤ cfg.samplerate * cfg.audio_time ∧
    batches.foldl (manage_audio_buffer cfg) [] =
      batches.flatten.rtake (maxLength cfg) := by
  have hmain := foldl_manage_eq cfg hpos batches []
  simp only [List.rtake_nil, List.nil_append] at hmain
  refine ⟨?_, maxLength_le_product cfg hpos, hmain⟩
  rw [hmain]
  exact length_rtake_le _ _

/-- Witness for `rolling_buffer_window_invariant` at a concrete configuration
and batch sequence. -/
theorem rolling_buffer_window_invariant_witness :
    1 ≤ maxLength ⟨2, 2, 1, none, none, "wav"⟩ ∧
    (([[[1]], [[2]], [[3]], [[4]], [[5]], [[6]]] :
        List (List Frame)).foldl
        (manage_audio_buffer ⟨2, 2, 1, none, none, "wav"⟩) []).length ≤
      maxLength ⟨2, 2, 1, none, none, "wav"⟩ ∧
    (maxLength ⟨2, 2, 1, none, none, "wav"⟩ : ℚ) ≤ 2 * 2 ∧
    ([[[1]], [[2]], [[3]], [[4]], [[5]], [[6]]] :
        List (List Frame)).foldl
        (manage_audio_buffer ⟨2, 2, 1, none, none, "wav"⟩) [] =
      ([[[1]], [[2]], [[3]], [[4]], [[5]], [[6]]] :
        List (List Frame)).flatten.rtake
        (maxLength ⟨2, 2, 1, none, none, "wav"⟩) := by
  refine ⟨by norm_num [maxLength], ?_⟩
  have h := rolling_buffer_window_invariant ⟨2, 2, 1, none, none, "wav"⟩
    [[[1]], [[2]], [[3]], [[4]], [[5]], [[6]]] (by norm_num [maxLength])
  exact ⟨h.1, by norm_num [maxLength], h.2.2⟩

/-- One feature reading `{'feature': ..., 'value': ...}` as built by
`process_feature`.  The machine is generic over the value type `V`. -/
structure Feature (V : Type) where
  feature : String
  value : V
deriving Repr, DecidableEq

/-- The payload dict built in `post_to_iot`. -/
structure Payload (V : Type) where
  timestamp : ℚ
  device_id : String
  features : List (Feature V)
  audio_file_id : String
  meta : Meta
deriving Repr, DecidableEq

/-- One entry of `self.feature_data[audio_file_id]` (the value part). -/
structure SegmentData (V : Type) where
  messages : List (Payload V)
  device_id : String
  meta : Meta
  timestamp : ℚ
deriving Repr, DecidableEq

/-- Dict `self.feature_data`: a Python dict, modelled as an insertion-ordered
association list with unique keys. -/
abbrev FMap (V : Type) := List (String × SegmentData V)

/-- One `{'timestamp': ..., 'value': ...}` element of a feature time series
in the aggregated file. -/
structure TimeValue (V : Type) where
  timestamp : ℚ
  value : V
deriving Repr, DecidableEq

/-- The payload dict written by `write_features_to_file` for one segment. -/
structure FilePayload (V : Type) where
  device_id : String
  audio_file_id : String
  meta : Meta
  data : List (String × List (TimeValue V))
  timestamp : ℚ
deriving Repr, DecidableEq

/-- Content of one durably written file: a flushed audio buffer or an
aggregated-features JSON payload. -/
inductive FileContent (V : Type) where
  | audio (frames : List Frame)
  | json (payload : FilePayload V)
deriving Repr, DecidableEq

variable {V : Type}

/-- Python `audio_file_id in self.feature_data`. -/
def hasKey (m : FMap V) (k : String) : Bool := m.any fun e => e.1 == k

/-- Appending one payload to `self.feature_data[k]['messages']`. -/
def append_message (m : FMap V) (k : String) (p : Payload V) : FMap V :=
  m.map fun e => if e.1 = k then (e.1, { e.2 with messages := e.2.messages ++ [p] }) else e

/-- The fresh dict stored for a new `audio_file_id` in `save_locally`
(before the unconditional append of the payload). -/
def seed_segment (p : Payload V) : SegmentData V :=
  { messages := [], device_id := p.device_id, meta := p.meta, timestamp := p.timestamp }

/-- Inner loop of `write_features_to_file`: append one `{timestamp, value}`
pair under `name` in the ordered `payload['data']` dict, creating the key at
the end on first occurrence. -/
def add_feature (data : List (String × List (TimeValue V))) (name : String)
    (tv : TimeValue V) : List (String × List (TimeValue V)) :=
  if data.any (fun e => e.1 == name) then
    data.map fun e => if e.1 = name then (e.1, e.2 ++ [tv]) else e
  else data ++ [(name, [tv])]

/-- Processing one stored message: fold its features into `data`. -/
def add_msg (data : List (String × List (TimeValue V))) (p : Payload V) :
    List (String × List (TimeValue V)) :=
  p.features.foldl (fun d f => add_feature d f.feature ⟨p.timestamp, f.value⟩) data

/-- Value `payload['data']` as built by the two nested loops of
`write_features_to_file` over the stored messages. -/
def build_data (msgs : List (Payload V)) : List (String × List (TimeValue V)) :=
  msgs.foldl add_msg []

/-- The JSON payload `write_features_to_file` constructs for one segment. -/
def file_payload (k : String) (fd : SegmentData V) : FilePayload V :=
  { device_id := fd.device_id, audio_file_id := k, meta := fd.meta,
    data := build_data fd.messages, timestamp := fd.timestamp }

/-- Source `AudioStreamer.write_features_to_file`: pop every held segment in
insertion order and write `<audio_file_id>.json` for each; returns the
performed writes and the emptied map. -/
def write_features_to_file (m : FMap V) :
    List (String × FileContent V) × FMap V :=
  (m.map fun e => (e.1 ++ ".json", FileContent.json (file_payload e.1 e.2)), [])

/-- Source `AudioStreamer.save_locally`: on a known `audio_file_id` just append;
on a new one first flush all held segments, then seed a fresh entry; in both
cases finish by appending the payload to the entry's message list. -/
def save_locally (m : FMap V) (p : Payload V) :
    List (String × FileContent V) × FMap V :=
  let k := p.audio_file_id
  let step :=
    if hasKey m k then ([], m)
    else
      let flushed := write_features_to_file m
      (flushed.1, flushed.2 ++ [(k, seed_segment p)])
  (step.1, append_message step.2 k p)

/-- C2: ingesting a payload whose `audio_file_id` is not a key of the
in-memory map first flushes every currently-held segment to a
`<id>.json` file (in insertion order), leaves exactly the fresh segment —
seeded with the payload's `device_id`, `meta`, `timestamp` and holding the
payload as its only message — in memory, and after any ingest on a map
holding at most one segment, at most one segment is held in memory. -/
theorem ingest_new_segment_flushes_all (V : Type) (m : FMap V) (p : Payload V)
    (habs : hasKey m p.audio_file_id = false) :
    (save_locally m p).1 =
      m.map (fun e => (e.1 ++ ".json", FileContent.json (file_payload e.1 e.2))) ∧
    (save_locally m p).2 =
      [(p.audio_file_id,
        { messages := [p], device_id := p.device_id, meta := p.meta,
          timestamp := p.timestamp })] ∧
    ∀ (m' : FMap V) (q : Payload V), m'.length ≤ 1 →
      ((save_locally m' q).2).length ≤ 1 := by
  refine ⟨?_, ?_, ?_⟩
  · simp [save_locally, habs, write_features_to_file]
  · simp [save_locally, habs, write_features_to_file, append_message, seed_segment]
  · intro m' q h
    by_cases hk : hasKey m' q.audio_file_id
    · simpa [save_locally, hk, append_message] using h
    · simp [save_locally, hk, append_message, write_features_to_file]

/-- Witness for `ingest_new_segment_flushes_all` on a one-segment map and a
payload for a different segment id. -/
theorem ingest_new_segment_flushes_all_witness :
    hasKey [("a", (⟨[], "d", [], 0⟩ : SegmentData ℚ))]
        (Payload.audio_file_id (⟨1, "d2", [], "b", []⟩ : Payload ℚ)) = false ∧
    (save_locally [("a", (⟨[], "d", [], 0⟩ : SegmentData ℚ))]
        (⟨1, "d2", [], "b", []⟩ : Payload ℚ)).1 =
      [("a", (⟨[], "d", [], 0⟩ : SegmentData ℚ))].map
        (fun e => (e.1 ++ ".json", FileContent.json (file_payload e.1 e.2))) ∧
    (save_locally [("a", (⟨[], "d", [], 0⟩ : SegmentData ℚ))]
        (⟨1, "d2", [], "b", []⟩ : Payload ℚ)).2 =
      [("b", { messages := [(⟨1, "d2", [], "b", []⟩ : Payload ℚ)],
               device_id := "d2", meta := [], timestamp := 1 })] ∧
    ∀ (m' : FMap ℚ) (q : Payload ℚ), m'.length ≤ 1 →
      ((save_locally m' q).2).length ≤ 1 := by
  have h := ingest_new_segment_flushes_all ℚ
    [("a", (⟨[], "d", [], 0⟩ : SegmentData ℚ))]
    (⟨1, "d2", [], "b", []⟩ : Payload ℚ) (by decide)
  exact ⟨by decide, h.1, h.2.1, h.2.2⟩

/-- Append a block to an optional time series: an empty block leaves the
entry untouched (in particular absent keys stay absent). -/
def optAppend (o : Option (List β)) (l : List β) : Option (List β) :=
  match l with
  | [] => o
  | _ => some (o.getD [] ++ l)

/-- Spec-side description (from the spec's words): all `{timestamp, value}`
pairs for feature `name` drawn from one payload's feature list. -/
def collect_features (fs : List (Feature V)) (t : ℚ) (name : String) :
    List (TimeValue V) :=
  fs.filterMap fun f => if f.feature = name then some ⟨t, f.value⟩ else none

/-- Spec-side description (from the spec's words): the full arrival-ordered
`{timestamp, value}` series for feature `name` over a payload sequence. -/
def collect_series (ps : List (Payload V)) (name : String) : List (TimeValue V) :=
  ps.flatMap fun q => collect_features q.features q.timestamp name

theorem optAppend_nil (o : Option (List β)) : optAppend o [] = o := rfl

theorem getD_optAppend (o : Option (List β)) (l : List β) :
    (optAppend o l).getD [] = o.getD [] ++ l := by
  cases l <;> simp [optAppend]

theorem optAppend_assoc (o : Option (List β)) (a b : List β) :
    optAppend (optAppend o a) b = optAppend o (a ++ b) := by
  cases b with
  | nil => simp [optAppend_nil]
  | cons x xs =>
    cases a with
    | nil => simp [optAppend]
    | cons y ys => simp [optAppend, getD_optAppend]

theorem any_eq_lookup_isSome (data : List (String × List (TimeValue V))) (n : String) :
    (data.any fun e => e.1 == n) = (List.lookup n data).isSome := by
  induction data with
  | nil => simp
  | cons e rest ih =>
    obtain ⟨k, v⟩ := e
    by_cases h : n = k
    · simp [h, List.lookup_cons]
    · have h1 : (n == k) = false := beq_eq_false_iff_ne.mpr h
      have h2 : (k == n) = false := beq_eq_false_iff_ne.mpr fun hc => h hc.symm
      simp [List.lookup_cons, h1, h2, ih]

theorem lookup_map_bump (data : List (String × List (TimeValue V))) (n : String)
    (tv : TimeValue V) (name : String) :
    List.lookup name (data.map fun e => if e.1 = n then (e.1, e.2 ++ [tv]) else e) =
      if name = n then (List.lookup name data).map (· ++ [tv])
      else List.lookup name data := by
  induction data with
  | nil => simp
  | cons e rest ih =>
    obtain ⟨k, v⟩ := e
    by_cases hk : k = n
    · by_cases hn : name = k
      · simp [hk, hn, List.lookup_cons]
      · simp only [List.map_cons, if_pos hk]
        rw [List.lookup_cons, List.lookup_cons]
        have : (name == k) = false := beq_eq_false_iff_ne.mpr hn
        simp [this, ih]
    · by_cases hn : name = k
      · have : name ≠ n := by rw [hn]; exact hk
        simp [hk, hn, List.lookup_cons, this]
      · simp only [List.map_cons, if_neg hk]
        rw [List.lookup_cons, List.lookup_cons]
        have : (name == k) = false := beq_eq_false_iff_ne.mpr hn
        simp [this, ih]

theorem lookup_append_single (data : List (String × List (TimeValue V)))
    (n : String) (l : List (TimeValue V)) (name : String) :
    List.lookup name (data ++ [(n, l)]) =
      match List.lookup name data with
      | some v => some v
      | none => if name = n then some l else none := by
  induction data with
  | nil =>
    by_cases h : name = n
    · simp [List.lookup_cons, h]
    · have h1 : (name == n) = false := beq_eq_false_iff_ne.mpr h
      simp [List.lookup_cons, h, h1]
  | cons e rest ih =>
    obtain ⟨k, v⟩ := e
    by_cases hn : name = k
    · simp [List.lookup_cons, hn]
    · have : (name == k) = false := beq_eq_false_iff_ne.mpr hn
      simp only [List.cons_append]
      rw [List.lookup_cons, List.lookup_cons]
      simp [this, ih]

/-- One `add_feature` call appends the new pair under key `n` (creating the
key on first use) and leaves every other entry unchanged. -/
theorem lookup_add_feature (data : List (String × List (TimeValue V)))
    (n : String) (tv : TimeValue V) (name : String) :
    List.lookup name (add_feature data n tv) =
      optAppend (List.lookup name data) (if name = n then [tv] else []) := by
  unfold add_feature
  by_cases hpres : (data.any fun e => e.1 == n) = true
  · rw [if_pos hpres, lookup_map_bump]
    by_cases hn : name = n
    · subst hn
      have hsome : (List.lookup name data).isSome := by
        rw [← any_eq_lookup_isSome]; exact hpres
      obtain ⟨v, hv⟩ := Option.isSome_iff_exists.mp hsome
      simp [hv, optAppend]
    · simp [hn, optAppend_nil]
  · rw [if_neg hpres, lookup_append_single]
    by_cases hn : name = n
    · subst hn
      have hnone : List.lookup name data = none := by
        rw [← Option.not_isSome_iff_eq_none, ← any_eq_lookup_isSome]
        simpa using hpres
      simp [hnone, optAppend]
    · cases hl : List.lookup name data <;> simp [hn, optAppend_nil, hl]

/-- Folding one message's features into `data` appends exactly that
message's contribution to every feature's series. -/
theorem lookup_features_foldl (fs : List (Feature V)) (t : ℚ)
    (data : List (String × List (TimeValue V))) (name : String) :
    List.lookup name
        (fs.foldl (fun d f => add_feature d f.feature ⟨t, f.value⟩) data) =
      optAppend (List.lookup name data) (collect_features fs t name) := by
  induction fs generalizing data with
  | nil => simp [collect_features, optAppend_nil]
  | cons f fs ih =>
    simp only [List.foldl_cons]
    rw [ih, lookup_add_feature, optAppend_assoc]
    congr 1
    by_cases h : name = f.feature
    · simp [collect_features, h]
    · have h' : ¬(f.feature = name) := fun hc => h hc.symm
      simp [collect_features, h, h']

/-- Here `build_data` (the nested loops of `write_features_to_file`) realises the
transposition: each feature name maps to its arrival-ordered series. -/
theorem lookup_build_data_from (msgs : List (Payload V))
    (data : List (String × List (TimeValue V))) (name : String) :
    List.lookup name (msgs.foldl add_msg data) =
      optAppend (List.lookup name data) (collect_series msgs name) := by
  induction msgs generalizing data with
  | nil => simp [collect_series, optAppend_nil]
  | cons p ps ih =>
    simp only [List.foldl_cons]
    rw [ih, add_msg, lookup_features_foldl, optAppend_assoc]
    simp [collect_series]

/-- Since `optAppend none l` is `none` for an empty series and `some l` otherwise:
a name is a key of `build_data msgs` exactly when it occurs in some message,
and it maps to the full arrival-ordered series. -/
theorem lookup_build_data (msgs : List (Payload V)) (name : String) :
    List.lookup name (build_data msgs) =
      optAppend none (collect_series msgs name) := by
  rw [build_data, lookup_build_data_from]
  rfl

/-- One fallback ingest step accumulating the performed file writes:
`self.save_locally(payload)` applied to the running `(writes, feature_data)`
pair. -/
def ingest (st : List (String × FileContent V) × FMap V) (q : Payload V) :
    List (String × FileContent V) × FMap V :=
  let r := save_locally st.2 q
  (st.1 ++ r.1, r.2)

theorem foldl_ingest_same (S : String) (ps : List (Payload V))
    (hall : ∀ q ∈ ps, q.audio_file_id = S)
    (w : List (String × FileContent V)) (ms : List (Payload V))
    (d : String) (me : Meta) (t : ℚ) :
    ps.foldl ingest (w, [(S, ⟨ms, d, me, t⟩)]) =
      (w, [(S, ⟨ms ++ ps, d, me, t⟩)]) := by
  induction ps generalizing ms with
  | nil => simp
  | cons q qs ih =>
    have hq : q.audio_file_id = S := hall q (List.mem_cons_self q qs)
    have hstep : ingest (w, [(S, (⟨ms, d, me, t⟩ : SegmentData V))]) q =
        (w, [(S, ⟨ms ++ [q], d, me, t⟩)]) := by
      simp [ingest, save_locally, hasKey, hq, append_message]
    rw [List.foldl_cons, hstep,
      ih (fun r hr => hall r (List.mem_cons_of_mem q hr))]
    simp

/-- C3: ingesting payloads `p :: ps` that all carry segment id `S` into an
empty aggregator performs no intermediate write and leaves exactly one
in-memory segment holding all payloads in arrival order; flushing then
produces exactly one file, named `S ++ ".json"`, carrying the segment's
`device_id`, `audio_file_id`, `meta` and first timestamp, whose `data` maps
each feature name occurring in the payloads — and no other — to its full
arrival-ordered `{timestamp, value}` series. -/
theorem fallback_single_file (V : Type) (S : String) (p : Payload V)
    (ps : List (Payload V)) (hall : ∀ q ∈ p :: ps, q.audio_file_id = S) :
    (p :: ps).foldl ingest ([], []) =
      ([], [(S, ⟨p :: ps, p.device_id, p.meta, p.timestamp⟩)]) ∧
    (write_features_to_file ((p :: ps).foldl ingest ([], [])).2).1 =
      [(S ++ ".json", FileContent.json
        { device_id := p.device_id, audio_file_id := S, meta := p.meta,
          data := build_data (p :: ps), timestamp := p.timestamp })] ∧
    ∀ name, List.lookup name (build_data (p :: ps)) =
      optAppend none (collect_series (p :: ps) name) := by
  have hp : p.audio_file_id = S := hall p (List.mem_cons_self p ps)
  have hfirst : ingest ([], []) p =
      ([], [(S, (⟨[p], p.device_id, p.meta, p.timestamp⟩ : SegmentData V))]) := by
    simp [ingest, save_locally, hasKey, write_features_to_file, append_message,
      seed_segment, hp]
  have hfold : (p :: ps).foldl ingest ([], []) =
      ([], [(S, ⟨p :: ps, p.device_id, p.meta, p.timestamp⟩)]) := by
    rw [List.foldl_cons, hfirst,
      foldl_ingest_same S ps (fun r hr => hall r (List.mem_cons_of_mem p hr))]
    simp
  refine ⟨hfold, ?_, fun name => lookup_build_data (p :: ps) name⟩
  rw [hfold]
  simp [write_features_to_file, file_payload]

/-- Witness for `fallback_single_file` on two concrete `"std"` payloads. -/
theorem fallback_single_file_witness :
    (∀ q ∈ [(⟨0, "d", [⟨"std", 1⟩], "s", []⟩ : Payload ℚ),
            ⟨1, "d", [⟨"std", 2⟩], "s", []⟩], Payload.audio_file_id q = "s") ∧
    (([(⟨0, "d", [⟨"std", 1⟩], "s", []⟩ : Payload ℚ),
       ⟨1, "d", [⟨"std", 2⟩], "s", []⟩].foldl ingest ([], [])) =
      ([], [("s", ⟨[⟨0, "d", [⟨"std", 1⟩], "s", []⟩,
                    ⟨1, "d", [⟨"std", 2⟩], "s", []⟩], "d", [], 0⟩)]) ∧
    (write_features_to_file
        ([(⟨0, "d", [⟨"std", 1⟩], "s", []⟩ : Payload ℚ),
          ⟨1, "d", [⟨"std", 2⟩], "s", []⟩].foldl ingest ([], [])).2).1 =
      [("s" ++ ".json", FileContent.json
        { device_id := "d", audio_file_id := "s", meta := [],
          data := build_data [(⟨0, "d", [⟨"std", 1⟩], "s", []⟩ : Payload ℚ),
                              ⟨1, "d", [⟨"std", 2⟩], "s", []⟩],
          timestamp := 0 })] ∧
    ∀ name, List.lookup name
        (build_data [(⟨0, "d", [⟨"std", 1⟩], "s", []⟩ : Payload ℚ),
                     ⟨1, "d", [⟨"std", 2⟩], "s", []⟩]) =
      optAppend none (collect_series [(⟨0, "d", [⟨"std", 1⟩], "s", []⟩ : Payload ℚ),
                            ⟨1, "d", [⟨"std", 2⟩], "s", []⟩] name)) := by
  refine ⟨by decide, ?_⟩
  have h := fallback_single_file ℚ "s" ⟨0, "d", [⟨"std", 1⟩], "s", []⟩
    [⟨1, "d", [⟨"std", 2⟩], "s", []⟩] (by decide)
  simpa using h

/-- Value of `self.current_audio_id` as minted by `update_audio_id`:
`"audio_" + file_start_time.strftime('%Y%m%dT%H%M%S')`, i.e. a string that is
a function of the timestamp truncated to whole seconds (injective per second;
the calendar rendering is abstracted to the floor of the second count). -/
def mkAudioId (t : ℚ) : String := "audio_" ++ toString ⌊t⌋

/-!
Exception-flow model.  The durable-write primitive (`open`/`json.dump` in
`write_features_to_file`, `sf.write` in `save_audio`) is a parameter
`wr : String → Except String Unit` mapping a filename to success or a raised
error.  Each Python function is translated into the `Except` monad following
its own `try/except` structure: `save_audio` wraps its write in
`try/except`, while `write_features_to_file` and `save_locally` have no
handler, and `post_to_iot` guards only the publish call.
-/

/-- Function `write_features_to_file` under a fallible writer: iterates the held
segments in order; the first failing write raises out of the function. -/
def write_features_to_fileE (wr : String → Except String Unit) :
    FMap V → Except String Unit
  | [] => .ok ()
  | e :: rest => do
      wr (e.1 ++ ".json")
      write_features_to_fileE wr rest

/-- Function `save_locally` under a fallible writer: no `try/except` anywhere, so a
write error during the flush-all raises to the caller. -/
def save_locallyE (wr : String → Except String Unit) (m : FMap V)
    (p : Payload V) : Except String (FMap V) :=
  if hasKey m p.audio_file_id then .ok (append_message m p.audio_file_id p)
  else do
    write_features_to_fileE wr m
    .ok (append_message [(p.audio_file_id, seed_segment p)] p.audio_file_id p)

/-- The payload dict literal of `post_to_iot`: absent `device_id` defaults to
`'na'` via `config.get('device_id', 'na')`, absent `meta` to the empty map
via `config.get('meta', {})`. -/
def build_payload (cfg : Config) (now : ℚ) (feats : List (Feature V))
    (aid : String) : Payload V :=
  { timestamp := now, device_id := cfg.device_id.getD "na", features := feats,
    audio_file_id := aid, meta := cfg.meta.getD [] }

/-- Function `post_to_iot` under a fallible writer.  The `try/except` covers only the
publish call; in both the `except` branch and the no-client branch
`save_locally` runs unprotected. -/
def post_to_iotE (wr : String → Except String Unit)
    (pub : Option (Payload V → Except String Unit)) (cfg : Config)
    (feats : List (Feature V)) (now fileStart : ℚ) (m : FMap V) :
    Except String (FMap V) :=
  let payload : Payload V := build_payload cfg now feats (mkAudioId fileStart)
  match pub with
  | some publish =>
    match publish payload with
    | .ok _ => .ok m
    | .error _ => save_locallyE wr m payload
  | none => save_locallyE wr m payload

/-- Function `save_audio` under a fallible writer: the whole body sits in
`try/except Exception`, so a write failure is logged and swallowed; returns
the filenames actually written. -/
def save_audioE (wr : String → Except String Unit) (cfg : Config)
    (buf : List Frame) (fileStart : ℚ) : Except String (List String) :=
  if buf.isEmpty then .ok []
  else
    match wr (mkAudioId fileStart ++ "." ++ cfg.extension) with
    | .ok _ => .ok [mkAudioId fileStart ++ "." ++ cfg.extension]
    | .error _ => .ok []

/-- C4 counterexample: with one held segment `"a"`, a payload for a new
segment id and a writer that fails, the fallback path raises the write error
out of `post_to_iot` — it is not logged-and-swallowed. -/
theorem fallback_write_error_escapes_cex :
    post_to_iotE (V := ℚ) (fun _ => Except.error "disk full") none
        ⟨1, 1, 1, none, none, "wav"⟩ [] 1 0 [("a", ⟨[], "d", [], 0⟩)] =
      Except.error "disk full" := by
  rfl

/-- C4 amended: a file-write failure while flushing aggregated segments
propagates past `post_to_iot` (both in fallback-only mode and after a failed
publish), whereas an audio-file write failure inside `save_audio` is always
swallowed. -/
theorem fallback_write_error_propagates (V : Type)
    (wr : String → Except String Unit) (pe : String)
    (cfg : Config) (feats : List (Feature V)) (now fileStart : ℚ)
    (k : String) (fd : SegmentData V) (rest : FMap V) (e : String)
    (habs : hasKey ((k, fd) :: rest) (mkAudioId fileStart) = false)
    (hwr : wr (k ++ ".json") = Except.error e) :
    post_to_iotE wr none cfg feats now fileStart ((k, fd) :: rest) =
      Except.error e ∧
    post_to_iotE wr (some fun _ => Except.error pe) cfg feats now fileStart
        ((k, fd) :: rest) = Except.error e ∧
    ∀ (wr' : String → Except String Unit) (cfg' : Config) (buf : List Frame)
      (t : ℚ), ∃ r, save_audioE wr' cfg' buf t = Except.ok r := by
  have hflush : write_features_to_fileE wr ((k, fd) :: rest) =
      Except.error e := by
    unfold write_features_to_fileE
    rw [hwr]
    rfl
  have hsave : save_locallyE wr ((k, fd) :: rest)
      (build_payload cfg now feats (mkAudioId fileStart)) = Except.error e := by
    unfold save_locallyE
    simp only [build_payload, habs, Bool.false_eq_true, if_false]
    rw [hflush]
    rfl
  refine ⟨?_, ?_, ?_⟩
  · unfold post_to_iotE
    exact hsave
  · unfold post_to_iotE
    exact hsave
  · intro wr' cfg' buf t
    unfold save_audioE
    by_cases hb : buf.isEmpty
    · exact ⟨[], by simp [hb]⟩
    · cases hw : wr' (mkAudioId t ++ "." ++ cfg'.extension)
      · exact ⟨[], by simp [hb, hw]⟩
      · exact ⟨[mkAudioId t ++ "." ++ cfg'.extension], by simp [hb, hw]⟩

/-- Witness for `fallback_write_error_propagates` at the counterexample's
concrete inputs. -/
theorem fallback_write_error_propagates_witness :
    (hasKey [("a", (⟨[], "d", [], 0⟩ : SegmentData ℚ))] (mkAudioId 0) = false ∧
     (fun _ : String => (Except.error "disk full" : Except String Unit))
        ("a" ++ ".json") = Except.error "disk full") ∧
    (post_to_iotE (V := ℚ) (fun _ => Except.error "disk full") none
        ⟨1, 1, 1, none, none, "wav"⟩ [] 1 0 [("a", ⟨[], "d", [], 0⟩)] =
      Except.error "disk full" ∧
    post_to_iotE (V := ℚ) (fun _ => Except.error "disk full")
        (some fun _ => Except.error "pub down") ⟨1, 1, 1, none, none, "wav"⟩
        [] 1 0 [("a", ⟨[], "d", [], 0⟩)] = Except.error "disk full" ∧
    ∀ (wr' : String → Except String Unit) (cfg' : Config) (buf : List Frame)
      (t : ℚ), ∃ r, save_audioE wr' cfg' buf t = Except.ok r) := by
  refine ⟨⟨by decide, rfl⟩, ?_⟩
  exact fallback_write_error_propagates ℚ (fun _ => Except.error "disk full")
    "pub down" ⟨1, 1, 1, none, none, "wav"⟩ [] 1 0 "a" ⟨[], "d", [], 0⟩ []
    "disk full" (by decide) rfl

/-- The mutable `AudioStreamer` state driven by `audio_callback` (after
`start_streaming` has initialised both reference times). -/
structure SState (V : Type) where
  audio_buffer : List Frame
  feature_data : FMap V
  file_start_time : ℚ
  feature_start_time : ℚ
  current_audio_id : Option String
deriving Repr, DecidableEq

/-- Source `AudioStreamer.update_audio_id`: derives the current audio id from
`self.file_start_time`. -/
def update_audio_id (st : SState V) : SState V :=
  { st with current_audio_id := some (mkAudioId st.file_start_time) }

/-- Window selection of `process_feature`:
`self.audio_buffer[-feature_length:] if shape[0] >= feature_length else
self.audio_buffer` (Python slice semantics, including `[-0:]`). -/
def recent_audio (cfg : Config) (buf : List Frame) : List Frame :=
  if buf.length ≥ featureLength cfg then pyTailSlice (featureLength cfg) buf
  else buf

/-- The features list literal of `process_feature`, generic over the
extractor `stdv` standing for `float(np.std(...))`. -/
def feature_readings (stdv : List Frame → V) (cfg : Config)
    (buf : List Frame) : List (Feature V) :=
  [⟨"std", stdv (recent_audio cfg buf)⟩]

/-- Source `AudioStreamer.post_to_iot` in the pure machine (writes succeed).
`pub = none` is an absent IoT client; `pub = some publish` a connected
client whose publish attempt succeeds or raises per payload (a raise is
caught and routed to `save_locally`). -/
def post_to_iot (cfg : Config) (pub : Option (Payload V → Bool))
    (feats : List (Feature V)) (now : ℚ) (st : SState V) :
    SState V × List (String × FileContent V) :=
  let st1 := update_audio_id st
  let payload := build_payload cfg now feats (mkAudioId st.file_start_time)
  match pub with
  | some publish =>
    if publish payload then (st1, [])
    else
      let r := save_locally st1.feature_data payload
      ({ st1 with feature_data := r.2 }, r.1)
  | none =>
      let r := save_locally st1.feature_data payload
      ({ st1 with feature_data := r.2 }, r.1)

/-- Source `AudioStreamer.process_feature`. -/
def process_feature (stdv : List Frame → V) (cfg : Config)
    (pub : Option (Payload V → Bool)) (now : ℚ) (st : SState V) :
    SState V × List (String × FileContent V) :=
  post_to_iot cfg pub (feature_readings stdv cfg st.audio_buffer) now st

/-- Source `AudioStreamer.save_audio` in the pure machine: no-op on an empty
buffer, otherwise mint the id from `file_start_time` and write the whole
buffer under `<id>.<extension>`.  The buffer is NOT cleared (the reset is
commented out in the source). -/
def save_audio (cfg : Config) (st : SState V) :
    SState V × List (String × FileContent V) :=
  if st.audio_buffer.isEmpty then (st, [])
  else
    (update_audio_id st,
     [(mkAudioId st.file_start_time ++ "." ++ cfg.extension,
       FileContent.audio st.audio_buffer)])

/-- Source `AudioStreamer.audio_callback`: append-and-trim, then the two cadence
checks in sequence, each resetting its own reference time to `now` when it
fires. -/
def audio_callback (stdv : List Frame → V) (cfg : Config)
    (pub : Option (Payload V → Bool)) (now : ℚ) (indata : List Frame)
    (st : SState V) : SState V × List (String × FileContent V) :=
  let st0 :=
    { st with audio_buffer := manage_audio_buffer cfg st.audio_buffer indata }
  let r1 :=
    if now - st0.feature_start_time ≥ cfg.feature_time then
      let r := process_feature stdv cfg pub now st0
      ({ r.1 with feature_start_time := now }, r.2)
    else (st0, [])
  let r2 :=
    if now - r1.1.file_start_time ≥ cfg.audio_time then
      let r := save_audio cfg r1.1
      ({ r.1 with file_start_time := now }, r.2)
    else (r1.1, [])
  (r2.1, r1.2 ++ r2.2)

/-- Source `AudioStreamer.cleanup`: `save_audio()` then
`write_features_to_file()`. -/
def cleanup (cfg : Config) (st : SState V) :
    SState V × List (String × FileContent V) :=
  let r1 := save_audio cfg st
  let r2 := write_features_to_file r1.1.feature_data
  ({ r1.1 with feature_data := r2.2 }, r1.2 ++ r2.1)

/-- Discriminates audio-file writes from aggregated-JSON writes. -/
def isAudioWrite : String × FileContent V → Bool
  | (_, FileContent.audio _) => true
  | (_, FileContent.json _) => false

theorem post_to_iot_state (cfg : Config) (pub : Option (Payload V → Bool))
    (feats : List (Feature V)) (now : ℚ) (st : SState V) :
    (post_to_iot cfg pub feats now st).1.audio_buffer = st.audio_buffer ∧
    (post_to_iot cfg pub feats now st).1.file_start_time = st.file_start_time ∧
    (post_to_iot cfg pub feats now st).1.feature_start_time =
      st.feature_start_time := by
  unfold post_to_iot update_audio_id
  cases pub with
  | none => simp
  | some publish => dsimp only; split <;> simp

theorem process_feature_state (stdv : List Frame → V) (cfg : Config)
    (pub : Option (Payload V → Bool)) (now : ℚ) (st : SState V) :
    (process_feature stdv cfg pub now st).1.audio_buffer = st.audio_buffer ∧
    (process_feature stdv cfg pub now st).1.file_start_time =
      st.file_start_time ∧
    (process_feature stdv cfg pub now st).1.feature_start_time =
      st.feature_start_time :=
  post_to_iot_state cfg pub _ now st

theorem filter_isAudio_json_writes (l : FMap V) :
    ((write_features_to_file l).1).filter (isAudioWrite (V := V)) = [] := by
  unfold write_features_to_file
  induction l with
  | nil => rfl
  | cons e rest ih =>
      have h : isAudioWrite (V := V)
          (e.1 ++ ".json", FileContent.json (file_payload e.1 e.2)) = false := rfl
      simp only [List.map_cons, List.filter_cons, h]
      simpa using ih

theorem save_locally_writes_json (m : FMap V) (p : Payload V) :
    ((save_locally m p).1).filter (isAudioWrite (V := V)) = [] := by
  unfold save_locally
  by_cases h : hasKey m p.audio_file_id
  · simp [h]
  · simpa [h] using filter_isAudio_json_writes m

theorem post_to_iot_writes_json (cfg : Config) (pub : Option (Payload V → Bool))
    (feats : List (Feature V)) (now : ℚ) (st : SState V) :
    ((post_to_iot cfg pub feats now st).2).filter (isAudioWrite (V := V)) = [] := by
  unfold post_to_iot
  cases pub with
  | none => simpa using save_locally_writes_json _ _
  | some publish =>
      dsimp only
      split
      · rfl
      · simpa using save_locally_writes_json _ _

/-- Modelled from the spec's words (§4.3, `DualCadenceScheduler`): both
cadence conditions are evaluated against the reference times as they stood
when the batch arrived; the two checks are independent, both may fire on the
same batch, and each pipeline is invoked at most once. -/
def scheduler_spec (stdv : List Frame → V) (cfg : Config)
    (pub : Option (Payload V → Bool)) (now : ℚ) (indata : List Frame)
    (st : SState V) : SState V × List (String × FileContent V) :=
  let condF := now - st.feature_start_time ≥ cfg.feature_time
  let condA := now - st.file_start_time ≥ cfg.audio_time
  let st0 :=
    { st with audio_buffer := manage_audio_buffer cfg st.audio_buffer indata }
  let r1 :=
    if condF then
      let r := process_feature stdv cfg pub now st0
      ({ r.1 with feature_start_time := now }, r.2)
    else (st0, [])
  let r2 :=
    if condA then
      let r := save_audio cfg r1.1
      ({ r.1 with file_start_time := now }, r.2)
    else (r1.1, [])
  (r2.1, r1.2 ++ r2.2)

theorem audio_callback_eq_scheduler_spec (stdv : List Frame → V) (cfg : Config)
    (pub : Option (Payload V → Bool)) (now : ℚ) (indata : List Frame)
    (st : SState V) :
    audio_callback stdv cfg pub now indata st =
      scheduler_spec stdv cfg pub now indata st := by
  unfold audio_callback scheduler_spec
  by_cases hF : now - st.feature_start_time ≥ cfg.feature_time
  · simp only [hF, if_true]
    have hfile := (process_feature_state stdv cfg pub now
      { st with audio_buffer := manage_audio_buffer cfg st.audio_buffer indata }).2.1
    simp [hfile]
  · simp [hF]

theorem save_audio_state (cfg : Config) (st : SState V) :
    (save_audio cfg st).1.feature_start_time = st.feature_start_time ∧
    (save_audio cfg st).1.file_start_time = st.file_start_time ∧
    (save_audio cfg st).1.audio_buffer = st.audio_buffer ∧
    (save_audio cfg st).1.feature_data = st.feature_data := by
  unfold save_audio update_audio_id
  split <;> simp

theorem save_audio_writes (cfg : Config) (st : SState V) :
    (save_audio cfg st).2 =
      if st.audio_buffer.isEmpty then []
      else [(mkAudioId st.file_start_time ++ "." ++ cfg.extension,
             FileContent.audio st.audio_buffer)] := by
  unfold save_audio
  split <;> simp_all

/-- C6: on every arriving batch both cadence checks run against the
reference times as they stood at batch arrival (`audio_callback` coincides
with the spec's independent-cadence scheduler `scheduler_spec`); the feature
reference time is reset to `now` exactly when the feature cadence fires, the
flush reference time exactly when the flush cadence fires, both may fire on
the same batch, and the flush pipeline performs at most one audio write per
batch. -/
theorem dual_cadence_scheduler (V : Type) (stdv : List Frame → V)
    (cfg : Config) (pub : Option (Payload V → Bool)) (now : ℚ)
    (indata : List Frame) (st : SState V) :
    audio_callback stdv cfg pub now indata st =
      scheduler_spec stdv cfg pub now indata st ∧
    (audio_callback stdv cfg pub now indata st).1.feature_start_time =
      (if now - st.feature_start_time ≥ cfg.feature_time then now
       else st.feature_start_time) ∧
    (audio_callback stdv cfg pub now indata st).1.file_start_time =
      (if now - st.file_start_time ≥ cfg.audio_time then now
       else st.file_start_time) ∧
    ((audio_callback stdv cfg pub now indata st).2.filter
        (isAudioWrite (V := V))).length ≤ 1 := by
  have heq := audio_callback_eq_scheduler_spec stdv cfg pub now indata st
  refine ⟨heq, ?_, ?_, ?_⟩ <;> rw [heq] <;> unfold scheduler_spec
  · by_cases hF : now - st.feature_start_time ≥ cfg.feature_time
    · simp [hF]
      by_cases hA : now - st.file_start_time ≥ cfg.audio_time <;>
        simp [hA, (save_audio_state cfg _).1,
          (process_feature_state stdv cfg pub now _).2.2]
    · simp [hF]
      by_cases hA : now - st.file_start_time ≥ cfg.audio_time <;>
        simp [hA, (save_audio_state cfg _).1]
  · by_cases hF : now - st.feature_start_time ≥ cfg.feature_time <;>
      by_cases hA : now - st.file_start_time ≥ cfg.audio_time <;>
        simp [hF, hA, (process_feature_state stdv cfg pub now _).2.1]
  · by_cases hF : now - st.feature_start_time ≥ cfg.feature_time <;>
      by_cases hA : now - st.file_start_time ≥ cfg.audio_time <;>
        simp [hF, hA, List.filter_append, post_to_iot_writes_json,
          process_feature, save_audio_writes] <;>
      split <;> simp [isAudioWrite]

/-- C8: invoking the audio-flush pipeline (`save_audio`) on an empty buffer
writes nothing and returns the state completely unchanged — in particular
the current SegmentId is untouched. -/
theorem save_audio_empty_noop (V : Type) (cfg : Config) (st : SState V)
    (h : st.audio_buffer = []) : save_audio cfg st = (st, []) := by
  simp [save_audio, h]

/-- Witness for `save_audio_empty_noop` on a concrete empty-buffer state. -/
theorem save_audio_empty_noop_witness :
    (SState.audio_buffer (V := ℚ) ⟨[], [], 0, 0, none⟩ = []) ∧
    save_audio ⟨1, 5, 100, none, none, "wav"⟩
        (⟨[], [], 0, 0, none⟩ : SState ℚ) = (⟨[], [], 0, 0, none⟩, []) :=
  ⟨rfl, save_audio_empty_noop ℚ ⟨1, 5, 100, none, none, "wav"⟩
    ⟨[], [], 0, 0, none⟩ rfl⟩

theorem save_audio_current_id (cfg : Config) (st : SState V)
    (h : st.audio_buffer.isEmpty = false) :
    (save_audio cfg st).1.current_audio_id =
      some (mkAudioId st.file_start_time) := by
  unfold save_audio update_audio_id
  simp [h]

/-- C5 counterexample: stream start at time 0, flush fired by a batch at
time 10 (`audio_time = 5`): the file is written under the id minted from
`file_start_time = 0` — `audio_0.wav` — and that id becomes current, while
an id minted from the flush timestamp 10 would differ. -/
theorem segment_id_not_from_flush_time_cex :
    ((audio_callback (fun _ => (0 : ℚ)) ⟨1, 5, 100, none, none, "wav"⟩ none 10
        [[1]] (⟨[], [], 0, 0, none⟩ : SState ℚ)).2).map Prod.fst =
      [mkAudioId 0 ++ "." ++ "wav"] ∧
    (audio_callback (fun _ => (0 : ℚ)) ⟨1, 5, 100, none, none, "wav"⟩ none 10
        [[1]] (⟨[], [], 0, 0, none⟩ : SState ℚ)).1.current_audio_id =
      some (mkAudioId 0) ∧
    mkAudioId 0 ≠ mkAudioId 10 := by
  have h5 : (⌊(1 : ℚ) * (5 : ℚ)⌋ : ℤ) = 5 := by norm_num
  have hm : maxLength ⟨1, 5, 100, none, none, "wav"⟩ = 5 := by
    show ((⌊(1 : ℚ) * (5 : ℚ)⌋ : ℤ)).toNat = 5
    rw [h5]
    rfl
  have hman : manage_audio_buffer ⟨1, 5, 100, none, none, "wav"⟩ [] [[1]] =
      [[1]] := by
    unfold manage_audio_buffer
    simp [hm]
  have hF : ¬((100 : ℚ) ≤ (10 : ℚ)) := by norm_num
  have hA : ((5 : ℚ) ≤ (10 : ℚ)) := by norm_num
  refine ⟨?_, ?_, by decide⟩ <;>
    simp [audio_callback, hman, hF, hA, save_audio, update_audio_id]

/-- C5 amended: a flush on a non-empty (post-append) buffer mints the
SegmentId from `file_start_time` — the segment's start, i.e. the time of the
previous flush or of stream start — truncated to whole seconds, not from the
flush timestamp; the full buffer is written under `<that id>.<extension>`,
and that id becomes the current one while the reference time advances to
`now`. -/
theorem audio_flush_mints_from_segment_start (V : Type)
    (stdv : List Frame → V) (cfg : Config) (pub : Option (Payload V → Bool))
    (now : ℚ) (indata : List Frame) (st : SState V)
    (hA : now - st.file_start_time ≥ cfg.audio_time)
    (hne : manage_audio_buffer cfg st.audio_buffer indata ≠ []) :
    ((audio_callback stdv cfg pub now indata st).2).filter
        (isAudioWrite (V := V)) =
      [(mkAudioId st.file_start_time ++ "." ++ cfg.extension,
        FileContent.audio (manage_audio_buffer cfg st.audio_buffer indata))] ∧
    (audio_callback stdv cfg pub now indata st).1.current_audio_id =
      some (mkAudioId st.file_start_time) ∧
    (audio_callback stdv cfg pub now indata st).1.file_start_time = now := by
  have hps := post_to_iot_state cfg pub
    (feature_readings stdv cfg (manage_audio_buffer cfg st.audio_buffer indata))
    now { st with audio_buffer := manage_audio_buffer cfg st.audio_buffer indata }
  by_cases hF : now - st.feature_start_time ≥ cfg.feature_time <;>
    refine ⟨?_, ?_, ?_⟩ <;>
    simp [audio_callback, hF, hA, List.filter_append, post_to_iot_writes_json,
      process_feature, save_audio, update_audio_id, hne, hps.1, hps.2.1,
      isAudioWrite]

/-- Witness for `audio_flush_mints_from_segment_start` at the
counterexample's concrete inputs. -/
theorem audio_flush_mints_from_segment_start_witness :
    ((10 : ℚ) - SState.file_start_time (V := ℚ) ⟨[], [], 0, 0, none⟩ ≥
        Config.audio_time ⟨1, 5, 100, none, none, "wav"⟩ ∧
      manage_audio_buffer ⟨1, 5, 100, none, none, "wav"⟩
        (SState.audio_buffer (V := ℚ) ⟨[], [], 0, 0, none⟩) [[1]] ≠ []) ∧
    (((audio_callback (fun _ => (0 : ℚ)) ⟨1, 5, 100, none, none, "wav"⟩ none 10
        [[1]] (⟨[], [], 0, 0, none⟩ : SState ℚ)).2).filter
        (isAudioWrite (V := ℚ)) =
      [(mkAudioId (SState.file_start_time (V := ℚ) ⟨[], [], 0, 0, none⟩) ++
          "." ++ Config.extension ⟨1, 5, 100, none, none, "wav"⟩,
        FileContent.audio (manage_audio_buffer ⟨1, 5, 100, none, none, "wav"⟩
          (SState.audio_buffer (V := ℚ) ⟨[], [], 0, 0, none⟩) [[1]]))] ∧
    (audio_callback (fun _ => (0 : ℚ)) ⟨1, 5, 100, none, none, "wav"⟩ none 10
        [[1]] (⟨[], [], 0, 0, none⟩ : SState ℚ)).1.current_audio_id =
      some (mkAudioId (SState.file_start_time (V := ℚ) ⟨[], [], 0, 0, none⟩)) ∧
    (audio_callback (fun _ => (0 : ℚ)) ⟨1, 5, 100, none, none, "wav"⟩ none 10
        [[1]] (⟨[], [], 0, 0, none⟩ : SState ℚ)).1.file_start_time = 10) := by
  have h5 : (⌊(1 : ℚ) * (5 : ℚ)⌋ : ℤ) = 5 := by norm_num
  have hm : maxLength ⟨1, 5, 100, none, none, "wav"⟩ = 5 := by
    show ((⌊(1 : ℚ) * (5 : ℚ)⌋ : ℤ)).toNat = 5
    rw [h5]
    rfl
  have hA : (10 : ℚ) - SState.file_start_time (V := ℚ) ⟨[], [], 0, 0, none⟩ ≥
      Config.audio_time ⟨1, 5, 100, none, none, "wav"⟩ := by norm_num
  have hne : manage_audio_buffer ⟨1, 5, 100, none, none, "wav"⟩
      (SState.audio_buffer (V := ℚ) ⟨[], [], 0, 0, none⟩) [[1]] ≠ [] := by
    unfold manage_audio_buffer
    simp [hm]
  exact ⟨⟨hA, hne⟩, audio_flush_mints_from_segment_start ℚ (fun _ => (0 : ℚ))
    ⟨1, 5, 100, none, none, "wav"⟩ none 10 [[1]] ⟨[], [], 0, 0, none⟩ hA hne⟩

theorem cleanup_writes (cfg : Config) (s : SState V) :
    (cleanup cfg s).2 =
      (save_audio cfg s).2 ++ (write_features_to_file s.feature_data).1 := by
  unfold cleanup
  dsimp only
  rw [(save_audio_state cfg s).2.2.2]

theorem cleanup_state (cfg : Config) (s : SState V) :
    (cleanup cfg s).1.feature_data = [] ∧
    (cleanup cfg s).1.audio_buffer = s.audio_buffer ∧
    (cleanup cfg s).1.file_start_time = s.file_start_time := by
  unfold cleanup
  dsimp only
  exact ⟨rfl, (save_audio_state cfg s).2.2.1, (save_audio_state cfg s).2.1⟩

/-- C7 counterexample: after one `cleanup` on a non-empty buffer, a second
`cleanup` is not a no-op — the buffer was never cleared, so the same audio
file is written again. -/
theorem cleanup_second_call_rewrites_cex :
    (cleanup (V := ℚ) ⟨1, 5, 100, none, none, "wav"⟩
        (cleanup ⟨1, 5, 100, none, none, "wav"⟩
          (⟨[[1]], [], 0, 0, none⟩ : SState ℚ)).1).2 =
      [("audio_0.wav", FileContent.audio [[1]])] ∧
    (cleanup (V := ℚ) ⟨1, 5, 100, none, none, "wav"⟩
        (cleanup ⟨1, 5, 100, none, none, "wav"⟩
          (⟨[[1]], [], 0, 0, none⟩ : SState ℚ)).1).2 ≠ [] := by
  constructor
  · decide
  · decide

/-- C7 amended: one `cleanup` flushes the audio buffer (empty-buffer
no-op included in `save_audio`'s formula) and every held aggregated segment
exactly once, emptying the segment map; a second `cleanup` flushes no
aggregated segment and creates no file under any new name, but — because the
buffer is never cleared — it writes the very same audio file again, so it is
not a no-op on a non-empty buffer. -/
theorem cleanup_flushes_once_but_rewrites_audio (V : Type) (cfg : Config)
    (st : SState V) :
    (cleanup cfg st).2 =
      (save_audio cfg st).2 ++ (write_features_to_file st.feature_data).1 ∧
    (cleanup cfg st).1.feature_data = [] ∧
    (cleanup cfg (cleanup cfg st).1).2 = (save_audio cfg st).2 ∧
    ((cleanup cfg (cleanup cfg st).1).2).filter
        (fun w => !(isAudioWrite (V := V) w)) = [] ∧
    ((cleanup cfg (cleanup cfg st).1).2).map Prod.fst ⊆
      ((cleanup cfg st).2).map Prod.fst := by
  have h1 := cleanup_writes cfg st
  have h2 := (cleanup_state cfg st).1
  have h3 : (cleanup cfg (cleanup cfg st).1).2 = (save_audio cfg st).2 := by
    rw [cleanup_writes cfg (cleanup cfg st).1, h2,
      save_audio_writes cfg (cleanup cfg st).1, save_audio_writes cfg st,
      (cleanup_state cfg st).2.1, (cleanup_state cfg st).2.2]
    simp [write_features_to_file]
  refine ⟨h1, h2, h3, ?_, ?_⟩
  · rw [h3, save_audio_writes]
    by_cases hb : st.audio_buffer.isEmpty <;> simp [hb, isAudioWrite]
  · rw [h3, h1, save_audio_writes]
    by_cases hb : st.audio_buffer.isEmpty <;> simp [hb]

/-- Mean of all samples, as a real (`np.mean` over the flattened window). -/
noncomputable def npMean (xs : List ℚ) : ℝ :=
  ((xs.map fun x => (x : ℝ)).sum) / xs.length

/-- Population variance of all samples (`np.std` squares; `ddof = 0`). -/
noncomputable def npVar (xs : List ℚ) : ℝ :=
  ((xs.map fun x => ((x : ℝ) - npMean xs) ^ 2).sum) / xs.length

/-- Function `np.std`: the population standard deviation of all samples (an
empty window, where numpy would yield NaN, maps to 0 under total real
operations). -/
noncomputable def npStd (xs : List ℚ) : ℝ := Real.sqrt (npVar xs)

/-- The actual extractor used by `process_feature`:
`float(np.std(recent_audio))` — the standard deviation over all samples and
channels (numpy flattens the 2-D window). -/
noncomputable def std_extractor : List Frame → ℝ := fun frames =>
  npStd frames.flatten

/-- Modelled from the spec's words (§4.4): the most recent
`samplerate × feature_time` samples of the buffer, or the whole buffer if it
is shorter. -/
def window_spec (cfg : Config) (buf : List Frame) : List Frame :=
  buf.rtake (featureLength cfg)

/-- C9: the feature window is the most recent `samplerate × feature_time`
samples (or the whole buffer when shorter), and the extraction result is
exactly one reading named `"std"` whose value is the standard deviation over
all samples and channels of that window, as a single scalar; every
`process_feature` invocation posts exactly that reading.  The capacity
hypothesis excludes the degenerate sub-one-sample window (Python's `[-0:]`
slice quirk). -/
theorem feature_extraction_std (cfg : Config) (buf : List Frame)
    (hpos : 1 ≤ featureLength cfg) :
    recent_audio cfg buf = window_spec cfg buf ∧
    feature_readings std_extractor cfg buf =
      [⟨"std", npStd (window_spec cfg buf).flatten⟩] ∧
    ∀ (pub : Option (Payload ℝ → Bool)) (now : ℚ) (st : SState ℝ),
      st.audio_buffer = buf →
      process_feature std_extractor cfg pub now st =
        post_to_iot cfg pub [⟨"std", npStd (window_spec cfg buf).flatten⟩]
          now st := by
  have h1 : recent_audio cfg buf = window_spec cfg buf := by
    unfold recent_audio window_spec pyTailSlice
    by_cases h : buf.length ≥ featureLength cfg
    · simp [h, Nat.one_le_iff_ne_zero.mp hpos]
    · simp only [h, if_false]
      exact (rtake_of_length_le (le_of_lt (lt_of_not_ge h))).symm
  have h2 : feature_readings std_extractor cfg buf =
      [⟨"std", npStd (window_spec cfg buf).flatten⟩] := by
    simp [feature_readings, h1, std_extractor]
  refine ⟨h1, h2, ?_⟩
  intro pub now st hbuf
  unfold process_feature
  rw [hbuf, h2]

/-- Witness for `feature_extraction_std` at a concrete configuration and
buffer. -/
theorem feature_extraction_std_witness :
    1 ≤ featureLength ⟨1, 5, 2, none, none, "wav"⟩ ∧
    (recent_audio ⟨1, 5, 2, none, none, "wav"⟩ [[1], [2], [3]] =
      window_spec ⟨1, 5, 2, none, none, "wav"⟩ [[1], [2], [3]] ∧
    feature_readings std_extractor ⟨1, 5, 2, none, none, "wav"⟩
        [[1], [2], [3]] =
      [⟨"std", npStd (window_spec ⟨1, 5, 2, none, none, "wav"⟩
          [[1], [2], [3]]).flatten⟩] ∧
    ∀ (pub : Option (Payload ℝ → Bool)) (now : ℚ) (st : SState ℝ),
      st.audio_buffer = [[1], [2], [3]] →
      process_feature std_extractor ⟨1, 5, 2, none, none, "wav"⟩ pub now st =
        post_to_iot ⟨1, 5, 2, none, none, "wav"⟩ pub
          [⟨"std", npStd (window_spec ⟨1, 5, 2, none, none, "wav"⟩
              [[1], [2], [3]]).flatten⟩] now st) := by
  have h2 : (⌊(1 : ℚ) * (2 : ℚ)⌋ : ℤ) = 2 := by norm_num
  have hpos : 1 ≤ featureLength ⟨1, 5, 2, none, none, "wav"⟩ := by
    show 1 ≤ ((⌊(1 : ℚ) * (2 : ℚ)⌋ : ℤ)).toNat
    rw [h2]
    decide
  exact ⟨hpos, feature_extraction_std ⟨1, 5, 2, none, none, "wav"⟩
    [[1], [2], [3]] hpos⟩

/-- C10: a configuration without `device_id` yields payloads with
`device_id = "na"`, and one without `meta` yields payloads with an empty
`meta` map; both via `dict.get` defaults, so neither absence is an error. -/
theorem absent_config_defaults (V : Type) (cfg : Config) (now : ℚ)
    (feats : List (Feature V)) (aid : String) :
    (cfg.device_id = none →
      (build_payload cfg now feats aid).device_id = "na") ∧
    (cfg.meta = none → (build_payload cfg now feats aid).meta = []) := by
  constructor <;> intro h <;> simp [build_payload, h]

/-- Witness for `absent_config_defaults` on a configuration lacking both
`device_id` and `meta`. -/
theorem absent_config_defaults_witness :
    (build_payload (V := ℚ) ⟨1, 5, 100, none, none, "wav"⟩ 0 [] "a").device_id =
      "na" ∧
    (build_payload (V := ℚ) ⟨1, 5, 100, none, none, "wav"⟩ 0 [] "a").meta = [] :=
  ⟨(absent_config_defaults ℚ ⟨1, 5, 100, none, none, "wav"⟩ 0 [] "a").1 rfl,
   (absent_config_defaults ℚ ⟨1, 5, 100, none, none, "wav"⟩ 0 [] "a").2 rfl⟩

end AudioStreamer
